import Mathlib

/-!
Verification development for the constraint-canonicalization core and the
finite-difference transformation of this repository.

The constraint component (expression classification, relational
normalization, rule-driven construction, containers and entry accessors)
is modelled from the specification, since the repository snapshot contains
only its unit tests; the finite-difference functions are translated
directly from pyomo/dae/plugins/finitedifference.py.
-/

namespace PyomoCon

/-- Modelled from the spec: an expression-tree node over numeric literals,
literal infinities, deferred (mutable) parameters that may currently hold
no value, decision variables that may currently hold no value, and
arithmetic combinations of these.  The repository snapshot does not
contain the expression implementation, only the interface description in
the spec (contains_free_variable and try_value). -/
inductive Expr where
  | lit : Int → Expr
  | pinf : Expr
  | ninf : Expr
  | param : Nat → Option Int → Expr
  | var : Nat → Option Int → Expr
  | add : Expr → Expr → Expr
  | sub : Expr → Expr → Expr
  | mul : Expr → Expr → Expr
deriving DecidableEq

/-- Modelled from the spec: true if any leaf of the expression is a
decision-variable reference. -/
def contains_free_variable : Expr → Bool
  | .lit _ => false
  | .pinf => false
  | .ninf => false
  | .param _ _ => false
  | .var _ _ => true
  | .add a b => contains_free_variable a || contains_free_variable b
  | .sub a b => contains_free_variable a || contains_free_variable b
  | .mul a b => contains_free_variable a || contains_free_variable b

/-- Modelled from the spec: constant-like means the expression contains no
free decision variable; it may still have an unresolved numeric value. -/
def is_constant_like (e : Expr) : Bool := !contains_free_variable e

/-- Modelled from the spec: numeric evaluation of an expression; returns
none (the model of a raised evaluation error) when any referenced variable
or deferred parameter has no current value, and for literal infinities. -/
def try_value : Expr → Option Int
  | .lit n => some n
  | .pinf => none
  | .ninf => none
  | .param _ v => v
  | .var _ v => v
  | .add a b =>
      match try_value a, try_value b with
      | some x, some y => some (x + y)
      | _, _ => none
  | .sub a b =>
      match try_value a, try_value b with
      | some x, some y => some (x - y)
      | _, _ => none
  | .mul a b =>
      match try_value a, try_value b with
      | some x, some y => some (x * y)
      | _, _ => none

/-- True if some decision-variable leaf of the expression has no current
value. -/
def hasUnsetVariable : Expr → Bool
  | .lit _ => false
  | .pinf => false
  | .ninf => false
  | .param _ _ => false
  | .var _ v => v.isNone
  | .add a b => hasUnsetVariable a || hasUnsetVariable b
  | .sub a b => hasUnsetVariable a || hasUnsetVariable b
  | .mul a b => hasUnsetVariable a || hasUnsetVariable b

/-- Modelled from the spec: literal infinities are recognized by value,
as the dedicated infinity leaves of the expression tree. -/
def isInfLit : Expr → Bool
  | .pinf => true
  | .ninf => true
  | _ => false

/-- Direction of a two-term relational operator, le or ge. -/
inductive Direction where
  | le
  | ge
deriving DecidableEq

/-- Modelled from the spec: the shape of a relational input as written,
before normalization. -/
inductive RelForm where
  | eqForm : Expr → Expr → RelForm
  | ineq2 : Expr → Direction → Expr → RelForm
  | ineq3 : Expr → Direction → Expr → Direction → Expr → RelForm
  | tuple2 : Expr → Expr → RelForm
  | tuple3 : Option Expr → Expr → Option Expr → RelForm
deriving DecidableEq

/-- Modelled from the spec: the canonical record produced by
normalization: a variable-bearing body, optional constant-like lower and
upper bounds, an equality flag, strictness flags and the active flag. -/
structure ConstraintEntry where
  body : Expr
  lower : Option Expr
  upper : Option Expr
  equality : Bool
  strict_lower : Bool
  strict_upper : Bool
  active : Bool
deriving DecidableEq

/-- Modelled from the spec: the two error kinds that surface to callers,
malformed-relation errors (ValueError) and misuse-of-relational-object
errors (TypeError). -/
inductive ConError where
  | malformed : String → ConError
  | misuse : String → ConError
deriving DecidableEq

def eqTwoNonConstantMsg : String :=
  "equality constraint cannot equate two non-constant expressions"

def eqNoVariablesMsg : String :=
  "cannot construct equality constraint with no variables"

def eqInfiniteMsg : String :=
  "cannot construct equality constraint with infinite bound"

def improperBoundMsg : String :=
  "improper bound: infinite value in an infeasible direction"

def ineqTwoNonConstantMsg : String :=
  "cannot determine the constraint body: two non-constant terms in a two-term relation"

def ineqNoVariablesMsg : String :=
  "cannot construct inequality constraint with no variables"

def chainOuterMsg : String :=
  "cannot determine the constraint body in a three-term relation with more than one non-constant term"

def mixedChainMsg : String :=
  "mixed-direction chain is not a valid range"

def chainBodyMsg : String :=
  "three-term relation body has no variables"

def tupleBoundVarMsg : String :=
  "tuple-form bound must be constant-like"

def tupleBodyMsg : String :=
  "tuple-form body has no variables"

def boolContextMsg : String :=
  "relational expression contains non-constant terms appearing in a Boolean context"

def boolEvalMsg : String :=
  "cannot evaluate a relational expression with unset values"

def endSentinelMsg : String :=
  "End sentinel is only valid for list-style containers"

def unconstructedMsg : String :=
  "constraint accessed before construction"

def emptyMsg : String :=
  "constraint is constructed but no value has been assigned"

/-- Modelled from the spec: canonicalization of one bound expression.
A literal positive infinity as an upper bound, or a literal negative
infinity as a lower bound, canonicalizes to no bound; the opposite
directions are infeasible by construction and are errors. -/
def normBound (isUpper : Bool) (e : Expr) : Except ConError (Option Expr) :=
  match e with
  | .pinf => if isUpper then .ok none else .error (.malformed improperBoundMsg)
  | .ninf => if isUpper then .error (.malformed improperBoundMsg) else .ok none
  | e => .ok (some e)

/-- Modelled from the spec: normalization of an equality (also used for a
2-tuple).  Exactly one side must be variable-bearing; the constant side
becomes both bounds; a literal infinite constant side is an error. -/
def normalizeEq (a b : Expr) : Except ConError ConstraintEntry :=
  match contains_free_variable a, contains_free_variable b with
  | true, true => .error (.malformed eqTwoNonConstantMsg)
  | false, false => .error (.malformed eqNoVariablesMsg)
  | true, false =>
      if isInfLit b then .error (.malformed eqInfiniteMsg)
      else .ok ⟨a, some b, some b, true, false, false, true⟩
  | false, true =>
      if isInfLit a then .error (.malformed eqInfiniteMsg)
      else .ok ⟨b, some a, some a, true, false, false, true⟩

/-- Modelled from the spec: normalization of a two-term inequality
l <= r, keeping directionality. -/
def normalizeLe (l r : Expr) : Except ConError ConstraintEntry :=
  match contains_free_variable l, contains_free_variable r with
  | true, true => .error (.malformed ineqTwoNonConstantMsg)
  | false, false => .error (.malformed ineqNoVariablesMsg)
  | true, false =>
      match normBound true r with
      | .error e => .error e
      | .ok u => .ok ⟨l, none, u, false, false, false, true⟩
  | false, true =>
      match normBound false l with
      | .error e => .error e
      | .ok lo => .ok ⟨r, lo, none, false, false, false, true⟩

/-- Modelled from the spec: a two-term inequality; a >= b is re-expressed
as b <= a. -/
def normalizeIneq2 (a : Expr) (d : Direction) (b : Expr) : Except ConError ConstraintEntry :=
  match d with
  | .le => normalizeLe a b
  | .ge => normalizeLe b a

/-- Modelled from the spec: normalization of an oriented range
lo <= mid <= hi.  The two outer terms must be constant-like, the middle
term must be variable-bearing, and each outer bound is subject to the same
infinity canonicalization as the two-term case. -/
def normalizeRange (lo mid hi : Expr) : Except ConError ConstraintEntry :=
  if contains_free_variable lo || contains_free_variable hi then
    .error (.malformed chainOuterMsg)
  else if contains_free_variable mid then
    match normBound false lo, normBound true hi with
    | .ok l, .ok u => .ok ⟨mid, l, u, false, false, false, true⟩
    | .error e, _ => .error e
    | _, .error e => .error e
  else .error (.malformed chainBodyMsg)

/-- Modelled from the spec: a three-term chain; both operators must point
the same direction, and a >= chain is re-expressed as the reversed <=
range. -/
def normalizeIneq3 (a : Expr) (d1 : Direction) (b : Expr) (d2 : Direction) (c : Expr) :
    Except ConError ConstraintEntry :=
  match d1, d2 with
  | .le, .ge => .error (.malformed mixedChainMsg)
  | .ge, .le => .error (.malformed mixedChainMsg)
  | .le, .le => normalizeRange a b c
  | .ge, .ge => normalizeRange c b a

/-- Modelled from the spec: one optional bound of a 3-tuple, which must be
absent or constant-like, with the usual infinity canonicalization. -/
def normTupleBound (isUpper : Bool) : Option Expr → Except ConError (Option Expr)
  | none => .ok none
  | some e =>
      if contains_free_variable e then .error (.malformed tupleBoundVarMsg)
      else normBound isUpper e

/-- Modelled from the spec: normalization of a 3-tuple (lo, body, hi).
The body is asserted variable-bearing; the bounds are independently
canonicalized; structurally identical present bounds set the equality
flag. -/
def normalizeTuple3 (lo : Option Expr) (b : Expr) (hi : Option Expr) :
    Except ConError ConstraintEntry :=
  if contains_free_variable b then
    match normTupleBound false lo, normTupleBound true hi with
    | .ok l, .ok u =>
        let isEq := match l, u with
          | some e1, some e2 => decide (e1 = e2)
          | _, _ => false
        .ok ⟨b, l, u, isEq, false, false, true⟩
    | .error e, _ => .error e
    | _, .error e => .error e
  else .error (.malformed tupleBodyMsg)

/-- Modelled from the spec: the full normalization contract, dispatching
on the shape of the relational input.  A 2-tuple is treated exactly like
an equality. -/
def normalize : RelForm → Except ConError ConstraintEntry
  | .eqForm a b => normalizeEq a b
  | .ineq2 a d b => normalizeIneq2 a d b
  | .ineq3 a d1 b d2 c => normalizeIneq3 a d1 b d2 c
  | .tuple2 a b => normalizeEq a b
  | .tuple3 lo b hi => normalizeTuple3 lo b hi

/-- Evaluate the body of a canonical entry; none models the error raised
when a referenced variable has no current value. -/
def ConstraintEntry.value (e : ConstraintEntry) : Option Int := try_value e.body

/-- Evaluate the lower bound of a canonical entry; none models the error
raised at query time when a referenced deferred parameter has no value
(or when no lower bound exists). -/
def ConstraintEntry.lower_value (e : ConstraintEntry) : Option Int :=
  e.lower.bind try_value

/-- Evaluate the upper bound of a canonical entry; none models the error
raised at query time when a referenced deferred parameter has no value
(or when no upper bound exists). -/
def ConstraintEntry.upper_value (e : ConstraintEntry) : Option Int :=
  e.upper.bind try_value

/-- True if any term of the relational form contains a free decision
variable. -/
def optContainsVar : Option Expr → Bool
  | none => false
  | some e => contains_free_variable e

/-- True if some term of a relational form is variable-bearing. -/
def relContainsVar : RelForm → Bool
  | .eqForm a b => contains_free_variable a || contains_free_variable b
  | .ineq2 a _ b => contains_free_variable a || contains_free_variable b
  | .ineq3 a _ b _ c =>
      contains_free_variable a || contains_free_variable b || contains_free_variable c
  | .tuple2 a b => contains_free_variable a || contains_free_variable b
  | .tuple3 lo b hi =>
      optContainsVar lo || contains_free_variable b || optContainsVar hi

/-- Boolean meaning of a relational operator on known numeric values. -/
def evalDir : Direction → Int → Int → Bool
  | .le, x, y => decide (x ≤ y)
  | .ge, x, y => decide (y ≤ x)

/-- Modelled from the spec: using a relational object in a truth-value
(Boolean) context.  When the relation contains a free decision variable
this is a misuse-of-relational-object error (a type error, distinct from
the malformed-relation value errors); a relation over constants is
evaluated numerically, failing with a value error when some value is
unset. -/
def truthValue (r : RelForm) : Except ConError Bool :=
  if relContainsVar r then .error (.misuse boolContextMsg)
  else
    match r with
    | .eqForm a b =>
        match try_value a, try_value b with
        | some x, some y => .ok (decide (x = y))
        | _, _ => .error (.malformed boolEvalMsg)
    | .ineq2 a d b =>
        match try_value a, try_value b with
        | some x, some y => .ok (evalDir d x y)
        | _, _ => .error (.malformed boolEvalMsg)
    | .ineq3 a d1 b d2 c =>
        match try_value a, try_value b, try_value c with
        | some x, some y, some z => .ok (evalDir d1 x y && evalDir d2 y z)
        | _, _, _ => .error (.malformed boolEvalMsg)
    | .tuple2 _ _ => .ok true
    | .tuple3 _ _ _ => .ok true

/-- Modelled from the spec: composing comparisons incrementally.  A
two-term inequality extended by a further comparison folds into the same
chain analysis as a literally written three-term chain; re-comparing any
other relational object first forces its Boolean evaluation (so the
misuse error from the truth-value context propagates), after which the
coerced truth value participates as a plain numeric operand. -/
def extendChain (r : RelForm) (d : Direction) (c : Expr) : Except ConError RelForm :=
  match r with
  | .ineq2 a d0 b => .ok (.ineq3 a d0 b d c)
  | r =>
      match truthValue r with
      | .error e => .error e
      | .ok bv => .ok (.ineq2 (.lit (if bv then 1 else 0)) d c)

/-- Modelled from the spec: the value produced by one rule invocation: the
Skip sentinel, the End sentinel, or a relational form. -/
inductive RuleResult where
  | skip : RuleResult
  | stop : RuleResult
  | form : RelForm → RuleResult
deriving DecidableEq

/-- True exactly for the Skip sentinel. -/
def RuleResult.isSkip : RuleResult → Bool
  | .skip => true
  | _ => false

/-- Modelled from the spec: rule-driven construction over a fixed index
domain.  An index at which the rule returns Skip gets no entry; the End
sentinel is only valid for list-style containers and is a construction
error here; any relational form is normalized and stored at the current
index. -/
def constructFixed (rule : Nat → RuleResult) :
    List Nat → Except ConError (List (Nat × ConstraintEntry))
  | [] => .ok []
  | i :: rest =>
      match rule i with
      | .skip => constructFixed rule rest
      | .stop => .error (.malformed endSentinelMsg)
      | .form f =>
          match normalize f with
          | .error e => .error e
          | .ok en =>
              match constructFixed rule rest with
              | .error e => .error e
              | .ok l => .ok ((i, en) :: l)

/-- Modelled from the spec: a list-style container, whose index space is
the sequential positive integers; the running counter records the last
sequence number consumed. -/
structure ConList where
  counter : Nat
  entries : List (Nat × ConstraintEntry)
deriving DecidableEq

/-- Modelled from the spec: a value passed directly to the add operation
of a list-style container: the Skip sentinel or a relational form. -/
inductive AddValue where
  | skip : AddValue
  | form : RelForm → AddValue
deriving DecidableEq

/-- Modelled from the spec: adding to a list-style container.  A Skip
passed directly to add consumes one sequence number without creating an
entry; a relational form is normalized and stored at the next sequence
number. -/
def ConList.add (c : ConList) : AddValue → Except ConError ConList
  | .skip => .ok ⟨c.counter + 1, c.entries⟩
  | .form f =>
      match normalize f with
      | .error e => .error e
      | .ok en => .ok ⟨c.counter + 1, c.entries ++ [(c.counter + 1, en)]⟩

/-- Currently populated indices of a list-style container. -/
def ConList.keys (c : ConList) : List Nat := c.entries.map Prod.fst

/-- Modelled from the spec: a singleton container (no declared index
dimensions) holds at most one entry; it is unconstructed, or constructed
with no entry yet, or populated. -/
structure SimpleCon where
  constructed : Bool
  entry : Option ConstraintEntry
deriving DecidableEq

/-- Number of entries of a singleton container. -/
def SimpleCon.len (c : SimpleCon) : Nat :=
  match c.entry with
  | some _ => 1
  | none => 0

/-- Modelled from the spec: every entry accessor of a singleton goes
through the stored entry, failing with a descriptive error (distinguishing
unconstructed from constructed-but-empty) rather than returning a
default. -/
def SimpleCon.getEntry (c : SimpleCon) : Except ConError ConstraintEntry :=
  if c.constructed then
    match c.entry with
    | some en => .ok en
    | none => .error (.malformed emptyMsg)
  else .error (.malformed unconstructedMsg)

/-- Calling the singleton evaluates the body of its entry. -/
def SimpleCon.callValue (c : SimpleCon) : Except ConError (Option Int) :=
  (c.getEntry).map ConstraintEntry.value

/-- Body accessor of a singleton. -/
def SimpleCon.bodyAcc (c : SimpleCon) : Except ConError Expr :=
  (c.getEntry).map ConstraintEntry.body

/-- Lower-bound accessor of a singleton. -/
def SimpleCon.lowerAcc (c : SimpleCon) : Except ConError (Option Expr) :=
  (c.getEntry).map ConstraintEntry.lower

/-- Upper-bound accessor of a singleton. -/
def SimpleCon.upperAcc (c : SimpleCon) : Except ConError (Option Expr) :=
  (c.getEntry).map ConstraintEntry.upper

/-- Equality-flag accessor of a singleton. -/
def SimpleCon.equalityAcc (c : SimpleCon) : Except ConError Bool :=
  (c.getEntry).map ConstraintEntry.equality

/-- Strict-lower-flag accessor of a singleton. -/
def SimpleCon.strictLowerAcc (c : SimpleCon) : Except ConError Bool :=
  (c.getEntry).map ConstraintEntry.strict_lower

/-- Strict-upper-flag accessor of a singleton. -/
def SimpleCon.strictUpperAcc (c : SimpleCon) : Except ConError Bool :=
  (c.getEntry).map ConstraintEntry.strict_upper

/-- Modelled from the spec: assigning a relational form to a singleton
normalizes it and replaces the entry wholesale. -/
def SimpleCon.set_value (c : SimpleCon) (f : RelForm) : Except ConError SimpleCon :=
  match normalize f with
  | .error e => .error e
  | .ok en => .ok ⟨c.constructed, some en⟩

/-- True exactly for error results. -/
def isErr {α : Type} : Except ConError α → Bool
  | .error _ => true
  | .ok _ => false

end PyomoCon

namespace PyomoDae

/-- Point functions and point sets of the finite-difference transforms are
modelled over the rationals; a transform returns none where the Python
code raises IndexError. -/
abbrev SchemeFun := (ℚ → ℚ) → Finset ℚ → ℚ → Option ℚ

/-- Backward difference formula of order O(h) for first derivatives,
translated from the function of the same name in finitedifference.py. -/
def _backward_transform (v : ℚ → ℚ) (s : Finset ℚ) : ℚ → Option ℚ := fun i =>
  let tmp := s.sort (· ≤ ·)
  let idx := tmp.indexOf i
  if idx = 0 then none
  else
    match tmp[idx]?, tmp[idx - 1]? with
    | some a, some b => some (1 / (a - b) * (v a - v b))
    | _, _ => none

/-- Backward difference formula of order O(h) for second derivatives,
translated from the function of the same name in finitedifference.py. -/
def _backward_transform_order2 (v : ℚ → ℚ) (s : Finset ℚ) : ℚ → Option ℚ := fun i =>
  let tmp := s.sort (· ≤ ·)
  let idx := tmp.indexOf i
  if idx = 0 ∨ idx = 1 then none
  else
    match tmp[idx]?, tmp[idx - 1]?, tmp[idx - 2]? with
    | some a, some b, some c => some (1 / ((b - c) * (a - b)) * (v a - 2 * v b + v c))
    | _, _, _ => none

/-- Central difference formula of order O(h^2) for first derivatives,
translated from the function of the same name in finitedifference.py. -/
def _central_transform (v : ℚ → ℚ) (s : Finset ℚ) : ℚ → Option ℚ := fun i =>
  let tmp := s.sort (· ≤ ·)
  let idx := tmp.indexOf i
  if idx = 0 then none
  else
    match tmp[idx + 1]?, tmp[idx - 1]? with
    | some a, some b => some (1 / (a - b) * (v a - v b))
    | _, _ => none

/-- Central difference formula of order O(h^2) for second derivatives,
translated from the function of the same name in finitedifference.py. -/
def _central_transform_order2 (v : ℚ → ℚ) (s : Finset ℚ) : ℚ → Option ℚ := fun i =>
  let tmp := s.sort (· ≤ ·)
  let idx := tmp.indexOf i
  if idx = 0 then none
  else
    match tmp[idx + 1]?, tmp[idx]?, tmp[idx - 1]? with
    | some a, some m, some b => some (1 / ((a - m) * (m - b)) * (v a - 2 * v m + v b))
    | _, _, _ => none

/-- Forward difference formula of order O(h) for first derivatives,
translated from the function of the same name in finitedifference.py. -/
def _forward_transform (v : ℚ → ℚ) (s : Finset ℚ) : ℚ → Option ℚ := fun i =>
  let tmp := s.sort (· ≤ ·)
  let idx := tmp.indexOf i
  match tmp[idx + 1]?, tmp[idx]? with
  | some a, some b => some (1 / (a - b) * (v a - v b))
  | _, _ => none

/-- Forward difference formula of order O(h) for second derivatives,
translated from the function of the same name in finitedifference.py. -/
def _forward_transform_order2 (v : ℚ → ℚ) (s : Finset ℚ) : ℚ → Option ℚ := fun i =>
  let tmp := s.sort (· ≤ ·)
  let idx := tmp.indexOf i
  match tmp[idx + 2]?, tmp[idx + 1]?, tmp[idx]? with
  | some c, some b, some a => some (1 / ((c - b) * (b - a)) * (v c - 2 * v b + v a))
  | _, _, _ => none

/-- The scheme dictionary of Finite_Difference_Transformation, keyed by
upper-case scheme name. -/
def all_schemes : List (String × (SchemeFun × SchemeFun)) :=
  [("BACKWARD", (_backward_transform, _backward_transform_order2)),
   ("CENTRAL", (_central_transform, _central_transform_order2)),
   ("FORWARD", (_forward_transform, _forward_transform_order2))]

def unknownSchemeMsg (tmpscheme : String) : String :=
  "Unknown finite difference scheme " ++ tmpscheme ++
    " specified using the scheme keyword. Valid schemes are BACKWARD, CENTRAL, and FORWARD"

/-- Upper-casing of the scheme keyword, the Python str.upper call, as a
character-wise map. -/
def strUpper (s : String) : String := String.mk (s.data.map Char.toUpper)

/-- Scheme selection of Finite_Difference_Transformation._apply_to: the
scheme keyword defaults to BACKWARD when omitted, is upper-cased, and is
looked up in the scheme dictionary; a failed lookup raises ValueError. -/
def resolveScheme (kw : Option String) : Except String (SchemeFun × SchemeFun) :=
  let tmpscheme := kw.getD "BACKWARD"
  let scheme_name := strUpper tmpscheme
  match all_schemes.lookup scheme_name with
  | some p => .ok p
  | none => .error (unknownSchemeMsg tmpscheme)

end PyomoDae

namespace PyomoCon

theorem try_value_none_of_unset (e : Expr) (h : hasUnsetVariable e = true) :
    try_value e = none := by
  induction e with
  | lit n => simp [hasUnsetVariable] at h
  | pinf => rfl
  | ninf => rfl
  | param n v => simp [hasUnsetVariable] at h
  | var n v => cases v <;> simp_all [hasUnsetVariable, try_value]
  | add a b iha ihb =>
      simp only [hasUnsetVariable, Bool.or_eq_true] at h
      rcases h with h1 | h1
      · simp [try_value, iha h1]
      · cases ha : try_value a <;> simp [try_value, ha, ihb h1]
  | sub a b iha ihb =>
      simp only [hasUnsetVariable, Bool.or_eq_true] at h
      rcases h with h1 | h1
      · simp [try_value, iha h1]
      · cases ha : try_value a <;> simp [try_value, ha, ihb h1]
  | mul a b iha ihb =>
      simp only [hasUnsetVariable, Bool.or_eq_true] at h
      rcases h with h1 | h1
      · simp [try_value, iha h1]
      · cases ha : try_value a <;> simp [try_value, ha, ihb h1]

/-- Claim C1 (amended): for every constant-like expression k that is not a
literal infinity and every variable-bearing expression x, normalizing the
equality k == x, the equality x == k, and the 2-tuples (k, x) and (x, k)
all produce the identical canonical entry with lower = k, upper = k,
equality true and body x. -/
theorem eq_normalization_symmetric (k x : Expr)
    (hk : is_constant_like k = true) (hx : contains_free_variable x = true)
    (hinf : isInfLit k = false) :
    normalize (.eqForm k x) = .ok ⟨x, some k, some k, true, false, false, true⟩ ∧
    normalize (.eqForm x k) = .ok ⟨x, some k, some k, true, false, false, true⟩ ∧
    normalize (.tuple2 k x) = .ok ⟨x, some k, some k, true, false, false, true⟩ ∧
    normalize (.tuple2 x k) = .ok ⟨x, some k, some k, true, false, false, true⟩ := by
  have hk2 : contains_free_variable k = false := by
    simpa [is_constant_like] using hk
  refine ⟨?_, ?_, ?_, ?_⟩ <;> simp [normalize, normalizeEq, hk2, hx, hinf]

theorem eq_normalization_symmetric_witness :
    normalize (.eqForm (Expr.lit 0) (Expr.var 0 none)) =
      .ok ⟨Expr.var 0 none, some (Expr.lit 0), some (Expr.lit 0), true, false, false, true⟩ :=
  (eq_normalization_symmetric (Expr.lit 0) (Expr.var 0 none) rfl rfl rfl).1

/-- Claim C1 counterexample: the literal positive infinity is
constant-like, yet normalizing the equality between it and a
variable-bearing expression (in either order) yields the infinite-bound
error rather than a canonical entry carrying that constant as both
bounds. -/
theorem eq_normalization_inf_counterexample :
    is_constant_like Expr.pinf = true ∧
    contains_free_variable (Expr.var 0 none) = true ∧
    normalize (.eqForm Expr.pinf (Expr.var 0 none)) = .error (.malformed eqInfiniteMsg) ∧
    normalize (.eqForm (Expr.var 0 none) Expr.pinf) = .error (.malformed eqInfiniteMsg) :=
  ⟨rfl, rfl, rfl, rfl⟩

/-- Claim C2: the infinity table for two-term inequalities over a
variable-bearing body x: x <= +inf and x >= -inf and their mirrored forms
canonicalize the infinite side to no bound, while x <= -inf, +inf <= x,
x >= +inf and -inf >= x are improper-bound errors. -/
theorem ineq2_infinity_table (x : Expr) (hx : contains_free_variable x = true) :
    normalize (.ineq2 x .le .pinf) = .ok ⟨x, none, none, false, false, false, true⟩ ∧
    normalize (.ineq2 .ninf .le x) = .ok ⟨x, none, none, false, false, false, true⟩ ∧
    normalize (.ineq2 x .le .ninf) = .error (.malformed improperBoundMsg) ∧
    normalize (.ineq2 .pinf .le x) = .error (.malformed improperBoundMsg) ∧
    normalize (.ineq2 x .ge .ninf) = .ok ⟨x, none, none, false, false, false, true⟩ ∧
    normalize (.ineq2 .pinf .ge x) = .ok ⟨x, none, none, false, false, false, true⟩ ∧
    normalize (.ineq2 x .ge .pinf) = .error (.malformed improperBoundMsg) ∧
    normalize (.ineq2 .ninf .ge x) = .error (.malformed improperBoundMsg) := by
  refine ⟨?_, ?_, ?_, ?_, ?_, ?_, ?_, ?_⟩ <;>
    simp [normalize, normalizeIneq2, normalizeLe, hx, normBound, contains_free_variable]

theorem ineq2_infinity_table_witness :
    normalize (.ineq2 (Expr.var 0 none) .le .pinf) =
      .ok ⟨Expr.var 0 none, none, none, false, false, false, true⟩ :=
  (ineq2_infinity_table (Expr.var 0 none) rfl).1

/-- Claim C3: a deferred parameter with no assigned value used as a bound
does not raise at construction: normalization succeeds and stores the
unevaluated parameter object itself as the bound; evaluating that bound
through lower_value or upper_value is what fails, at query time. -/
theorem mutable_novalue_param_bound (n : Nat) (x : Expr)
    (hx : contains_free_variable x = true) :
    normalize (.ineq2 (.param n none) .le x) =
      .ok ⟨x, some (.param n none), none, false, false, false, true⟩ ∧
    ConstraintEntry.lower_value ⟨x, some (.param n none), none, false, false, false, true⟩ =
      none ∧
    normalize (.ineq2 x .le (.param n none)) =
      .ok ⟨x, none, some (.param n none), false, false, false, true⟩ ∧
    ConstraintEntry.upper_value ⟨x, none, some (.param n none), false, false, false, true⟩ =
      none ∧
    normalize (.eqForm x (.param n none)) =
      .ok ⟨x, some (.param n none), some (.param n none), true, false, false, true⟩ ∧
    ConstraintEntry.upper_value
      ⟨x, some (.param n none), some (.param n none), true, false, false, true⟩ = none := by
  refine ⟨?_, ?_, ?_, ?_, ?_, ?_⟩ <;>
    simp [normalize, normalizeIneq2, normalizeLe, normalizeEq, hx, normBound,
      contains_free_variable, isInfLit, ConstraintEntry.lower_value,
      ConstraintEntry.upper_value, try_value]

theorem mutable_novalue_param_bound_witness :
    normalize (.ineq2 (Expr.param 0 none) .le (Expr.var 0 none)) =
      .ok ⟨Expr.var 0 none, some (Expr.param 0 none), none, false, false, false, true⟩ :=
  (mutable_novalue_param_bound 0 (Expr.var 0 none) rfl).1

/-- Claim C4: evaluating the body of a constraint entry numerically fails
whenever some variable referenced in the body has no current value. -/
theorem value_fails_on_unset_variable (en : ConstraintEntry)
    (h : hasUnsetVariable en.body = true) : en.value = none :=
  try_value_none_of_unset en.body h

theorem constructFixed_keys (rule : Nat → RuleResult) (dom : List Nat) :
    ∀ l, constructFixed rule dom = .ok l →
      l.map Prod.fst = dom.filter (fun i => !(rule i).isSkip) := by
  induction dom with
  | nil =>
      intro l h
      simp only [constructFixed, Except.ok.injEq] at h
      simp [h.symm]
  | cons i rest ih =>
      intro l h
      cases hr : rule i with
      | skip =>
          have h2 : constructFixed rule rest = .ok l := by
            simpa [constructFixed, hr] using h
          simp [List.filter_cons, hr, RuleResult.isSkip, ih l h2]
      | stop => simp [constructFixed, hr] at h
      | form f =>
          cases hn : normalize f with
          | error e => simp [constructFixed, hr, hn] at h
          | ok en =>
              cases hc : constructFixed rule rest with
              | error e => simp [constructFixed, hr, hn, hc] at h
              | ok l2 =>
                  have h2 : (i, en) :: l2 = l := by
                    simpa [constructFixed, hr, hn, hc] using h
                  simp [← h2, List.filter_cons, hr, RuleResult.isSkip, ih l2 hc]

/-- Claim C5: skip semantics differ by context.  Under rule-driven
construction over a fixed domain, the populated keys are exactly the
non-skipped indices (a skipped index is absent and the length counts only
non-skipped indices); for a list-style container, a Skip passed directly
to add consumes one sequence number without creating an entry, so on a
fresh list the next real entry receives index 2, index 1 is absent, and
the length is 1. -/
theorem skip_semantics (rule : Nat → RuleResult) (dom : List Nat)
    (l : List (Nat × ConstraintEntry)) (hok : constructFixed rule dom = .ok l)
    (f : RelForm) (en : ConstraintEntry) (hn : normalize f = .ok en) :
    l.map Prod.fst = dom.filter (fun i => !(rule i).isSkip) ∧
    l.length = (dom.filter (fun i => !(rule i).isSkip)).length ∧
    (∀ i ∈ dom, rule i = .skip → i ∉ l.map Prod.fst) ∧
    ConList.add ⟨0, []⟩ .skip = .ok ⟨1, []⟩ ∧
    ConList.add ⟨1, []⟩ (.form f) = .ok ⟨2, [(2, en)]⟩ ∧
    ConList.keys ⟨2, [(2, en)]⟩ = [2] ∧
    1 ∉ ConList.keys ⟨2, [(2, en)]⟩ ∧
    (ConList.mk 2 [(2, en)]).entries.length = 1 := by
  have hk := constructFixed_keys rule dom l hok
  refine ⟨hk, ?_, ?_, rfl, ?_, by simp [ConList.keys], by simp [ConList.keys], rfl⟩
  · rw [← hk, List.length_map]
  · intro i hi hskip hmem
    rw [hk] at hmem
    have := (List.mem_filter.mp hmem).2
    rw [hskip] at this
    simp [RuleResult.isSkip] at this
  · simp [ConList.add, hn]

theorem skip_semantics_witness :
    ConList.add ⟨1, []⟩ (.form (.ineq2 (.var 0 none) .ge (.lit 1))) =
      .ok ⟨2, [(2, ⟨Expr.var 0 none, some (Expr.lit 1), none, false, false, false, true⟩)]⟩ :=
  (skip_semantics
      (fun i => if i % 2 = 0 then .skip else .form (.ineq2 (.var 0 (some 2)) .ge (.lit 1)))
      [1, 2, 3, 4]
      [(1, ⟨Expr.var 0 (some 2), some (Expr.lit 1), none, false, false, false, true⟩),
       (3, ⟨Expr.var 0 (some 2), some (Expr.lit 1), none, false, false, false, true⟩)]
      rfl (.ineq2 (.var 0 none) .ge (.lit 1))
      ⟨Expr.var 0 none, some (Expr.lit 1), none, false, false, false, true⟩ rfl).2.2.2.2.1

theorem normBound_error_malformed (u : Bool) (e : Expr) (r : ConError)
    (h : normBound u e = .error r) : r = .malformed improperBoundMsg := by
  cases e <;> cases u <;> simp [normBound] at h <;> exact h.symm

theorem normTupleBound_error_malformed (u : Bool) (o : Option Expr) (r : ConError)
    (h : normTupleBound u o = .error r) : ∃ m, r = .malformed m := by
  cases o with
  | none => simp [normTupleBound] at h
  | some e =>
      by_cases he : contains_free_variable e = true
      · simp [normTupleBound, he] at h
        exact ⟨_, h.symm⟩
      · rw [Bool.not_eq_true] at he
        simp only [normTupleBound, he, Bool.false_eq_true, if_false] at h
        exact ⟨_, normBound_error_malformed u e r h⟩

theorem normTupleBound_ok_no_var (u : Bool) (o : Option Expr) (v : Option Expr)
    (h : normTupleBound u o = .ok v) : optContainsVar o = false := by
  cases o with
  | none => rfl
  | some e =>
      by_cases he : contains_free_variable e = true
      · simp [normTupleBound, he] at h
      · simpa [optContainsVar] using he

/-- Claim C6: a three-term relational form (chain or 3-tuple) in which at
least one of the two outer terms is variable-bearing is rejected with a
malformed-relation error rather than producing a canonical entry; only the
middle term may contain variables. -/
theorem three_term_outer_var_error :
    (∀ (a b c : Expr) (d1 d2 : Direction),
       (contains_free_variable a || contains_free_variable c) = true →
       ∃ m, normalize (.ineq3 a d1 b d2 c) = .error (.malformed m)) ∧
    (∀ (lo hi : Option Expr) (b : Expr),
       (optContainsVar lo || optContainsVar hi) = true →
       ∃ m, normalize (.tuple3 lo b hi) = .error (.malformed m)) := by
  constructor
  · intro a b c d1 d2 h
    cases d1 <;> cases d2
    · exact ⟨chainOuterMsg, by simp [normalize, normalizeIneq3, normalizeRange, h]⟩
    · exact ⟨mixedChainMsg, rfl⟩
    · exact ⟨mixedChainMsg, rfl⟩
    · refine ⟨chainOuterMsg, ?_⟩
      rw [Bool.or_comm] at h
      simp [normalize, normalizeIneq3, normalizeRange, h]
  · intro lo hi b h
    by_cases hb : contains_free_variable b = true
    · cases hl : normTupleBound false lo with
      | error r =>
          obtain ⟨m, rfl⟩ := normTupleBound_error_malformed _ _ _ hl
          exact ⟨m, by simp [normalize, normalizeTuple3, hb, hl]⟩
      | ok lval =>
          cases hh : normTupleBound true hi with
          | error r =>
              obtain ⟨m, rfl⟩ := normTupleBound_error_malformed _ _ _ hh
              exact ⟨m, by simp [normalize, normalizeTuple3, hb, hl, hh]⟩
          | ok uval =>
              exfalso
              rw [normTupleBound_ok_no_var _ _ _ hl,
                normTupleBound_ok_no_var _ _ _ hh] at h
              simp at h
    · rw [Bool.not_eq_true] at hb
      exact ⟨tupleBodyMsg, by simp [normalize, normalizeTuple3, hb]⟩

theorem three_term_outer_var_error_witness :
    (∃ m, normalize (.ineq3 (.lit 0) .le (.var 1 none) .le (.var 2 none)) =
       .error (.malformed m)) ∧
    (∃ m, normalize (.tuple3 (some (.var 0 none)) (.var 1 none) (some (.lit 1))) =
       .error (.malformed m)) :=
  ⟨three_term_outer_var_error.1 (.lit 0) (.var 1 none) (.var 2 none) .le .le rfl,
   three_term_outer_var_error.2 (some (.var 0 none)) (some (.lit 1)) (.var 1 none) rfl⟩

/-- Claim C7: a singleton container with no assigned entry has length 0
and every entry accessor (call, body, lower, upper, equality,
strict_lower, strict_upper) fails with an error rather than returning a
default; after assigning the two-sided relation 2 >= x >= 0 the length is
1 and the accessors return the canonical values: body x, lower 0, upper
2, equality false, both strict flags false. -/
theorem singleton_lifecycle (c : SimpleCon) (hc : c.entry = none)
    (x : Expr) (hx : contains_free_variable x = true) :
    c.len = 0 ∧
    isErr c.callValue = true ∧ isErr c.bodyAcc = true ∧ isErr c.lowerAcc = true ∧
    isErr c.upperAcc = true ∧ isErr c.equalityAcc = true ∧
    isErr c.strictLowerAcc = true ∧ isErr c.strictUpperAcc = true ∧
    c.set_value (.ineq3 (.lit 2) .ge x .ge (.lit 0)) =
      .ok ⟨c.constructed, some ⟨x, some (.lit 0), some (.lit 2), false, false, false, true⟩⟩ ∧
    SimpleCon.len ⟨true, some ⟨x, some (.lit 0), some (.lit 2), false, false, false, true⟩⟩ = 1 ∧
    SimpleCon.bodyAcc ⟨true, some ⟨x, some (.lit 0), some (.lit 2), false, false, false, true⟩⟩ =
      .ok x ∧
    SimpleCon.lowerAcc ⟨true, some ⟨x, some (.lit 0), some (.lit 2), false, false, false, true⟩⟩ =
      .ok (some (.lit 0)) ∧
    SimpleCon.upperAcc ⟨true, some ⟨x, some (.lit 0), some (.lit 2), false, false, false, true⟩⟩ =
      .ok (some (.lit 2)) ∧
    SimpleCon.equalityAcc
      ⟨true, some ⟨x, some (.lit 0), some (.lit 2), false, false, false, true⟩⟩ = .ok false ∧
    SimpleCon.strictLowerAcc
      ⟨true, some ⟨x, some (.lit 0), some (.lit 2), false, false, false, true⟩⟩ = .ok false ∧
    SimpleCon.strictUpperAcc
      ⟨true, some ⟨x, some (.lit 0), some (.lit 2), false, false, false, true⟩⟩ = .ok false := by
  obtain ⟨b, en⟩ := c
  cases hc
  refine ⟨rfl, ?_, ?_, ?_, ?_, ?_, ?_, ?_, ?_, rfl, ?_, ?_, ?_, ?_, ?_, ?_⟩ <;>
    cases b <;>
      simp [SimpleCon.callValue, SimpleCon.bodyAcc, SimpleCon.lowerAcc, SimpleCon.upperAcc,
        SimpleCon.equalityAcc, SimpleCon.strictLowerAcc, SimpleCon.strictUpperAcc,
        SimpleCon.getEntry, SimpleCon.set_value, SimpleCon.len, isErr, Except.map,
        normalize, normalizeIneq3, normalizeRange, hx, normBound, contains_free_variable]

theorem singleton_lifecycle_witness :
    SimpleCon.set_value ⟨true, none⟩ (.ineq3 (.lit 2) .ge (.var 0 (some 1)) .ge (.lit 0)) =
      .ok ⟨true, some ⟨Expr.var 0 (some 1), some (.lit 0), some (.lit 2),
        false, false, false, true⟩⟩ :=
  (singleton_lifecycle ⟨true, none⟩ rfl (Expr.var 0 (some 1)) rfl).2.2.2.2.2.2.2.2.1

/-- Claim C8: a relational expression containing a free decision variable
used in a truth-value (Boolean) context fails with the misuse error kind
(a type error); chaining a further comparison onto an equality forces that
Boolean evaluation and fails the same way; and the misuse kind is distinct
from the malformed kind used for malformed relational shapes. -/
theorem relational_bool_context_error :
    (∀ r : RelForm, relContainsVar r = true →
       truthValue r = .error (.misuse boolContextMsg)) ∧
    (∀ (a b c : Expr) (d : Direction), relContainsVar (.eqForm a b) = true →
       extendChain (.eqForm a b) d c = .error (.misuse boolContextMsg)) ∧
    (∀ m m' : String, ConError.misuse m ≠ ConError.malformed m') := by
  refine ⟨?_, ?_, ?_⟩
  · intro r h
    simp [truthValue, h]
  · intro a b c d h
    simp [extendChain, truthValue, h]
  · intro m m' hcon
    cases hcon

theorem relational_bool_context_error_witness :
    truthValue (.ineq2 (Expr.var 0 none) .le (.lit 0)) =
      .error (.misuse boolContextMsg) ∧
    extendChain (.eqForm (Expr.var 0 none) (.lit 0)) .ge (.lit 1) =
      .error (.misuse boolContextMsg) :=
  ⟨relational_bool_context_error.1 (.ineq2 (Expr.var 0 none) .le (.lit 0)) rfl,
   relational_bool_context_error.2.1 (Expr.var 0 none) (.lit 0) (.lit 1) .ge rfl⟩

theorem value_fails_on_unset_variable_witness :
    ConstraintEntry.value
      ⟨Expr.add (Expr.var 0 none) (Expr.lit 1), none, some (Expr.lit 1),
        false, false, false, true⟩ = none :=
  value_fails_on_unset_variable
    ⟨Expr.add (Expr.var 0 none) (Expr.lit 1), none, some (Expr.lit 1),
      false, false, false, true⟩ rfl

end PyomoCon

namespace PyomoDae

theorem sorted_getElem_le {l : List ℚ} (h : l.Sorted (· ≤ ·)) (k m : Nat)
    (hk : k < l.length) (hm : m < l.length) (hkm : k ≤ m) : l[k] ≤ l[m] := by
  rcases Nat.lt_or_ge k m with hlt | hge
  · simpa using h.rel_get_of_lt (a := ⟨k, hk⟩) (b := ⟨m, hm⟩) hlt
  · have hkm2 : k = m := Nat.le_antisymm hkm hge
    subst hkm2
    exact le_refl _

theorem sort_indexOf_zero_iff_min (s : Finset ℚ) (i : ℚ) (hi : i ∈ s) :
    (s.sort (· ≤ ·)).indexOf i = 0 ↔ ∀ j ∈ s, i ≤ j := by
  have hsorted : (s.sort (· ≤ ·)).Sorted (· ≤ ·) := Finset.sort_sorted _ s
  have hnodup : (s.sort (· ≤ ·)).Nodup := Finset.sort_nodup _ s
  have hmem : i ∈ s.sort (· ≤ ·) := (Finset.mem_sort _).mpr hi
  have hidx : (s.sort (· ≤ ·)).indexOf i < (s.sort (· ≤ ·)).length :=
    List.indexOf_lt_length.mpr hmem
  have hget : (s.sort (· ≤ ·))[(s.sort (· ≤ ·)).indexOf i] = i :=
    List.getElem_indexOf hidx
  constructor
  · intro h0 j hj
    have hjmem : j ∈ s.sort (· ≤ ·) := (Finset.mem_sort _).mpr hj
    obtain ⟨k, hk, rfl⟩ := List.getElem_of_mem hjmem
    have h0lt : 0 < (s.sort (· ≤ ·)).length := Nat.lt_of_le_of_lt (Nat.zero_le _) hk
    have hgz : (s.sort (· ≤ ·))[0] = i := by
      simp only [h0] at hget
      exact hget
    have h2 : (s.sort (· ≤ ·))[0] ≤ (s.sort (· ≤ ·))[k] :=
      sorted_getElem_le hsorted 0 k h0lt hk (Nat.zero_le _)
    rwa [hgz] at h2
  · intro hmin
    have h0lt : 0 < (s.sort (· ≤ ·)).length := Nat.lt_of_le_of_lt (Nat.zero_le _) hidx
    have hhead_mem : (s.sort (· ≤ ·))[0] ∈ s :=
      (Finset.mem_sort _).mp (List.getElem_mem h0lt)
    have h1 : i ≤ (s.sort (· ≤ ·))[0] := hmin _ hhead_mem
    have h2 : (s.sort (· ≤ ·))[0] ≤ i := by
      have := sorted_getElem_le hsorted 0 ((s.sort (· ≤ ·)).indexOf i) h0lt hidx (Nat.zero_le _)
      rwa [hget] at this
    have heq : (s.sort (· ≤ ·))[0] = i := le_antisymm h2 h1
    have := List.indexOf_getElem hnodup 0 h0lt
    rwa [heq] at this

/-- Claim C9: for a point set s with at least two points and a point i of
s, the backward first-derivative transform applied at i raises IndexError
exactly when i is the smallest point of s in sorted order; otherwise it
returns (v i - v p) / (i - p), where p is the point immediately preceding
i in sorted order, that is, the greatest point of s below i. -/
theorem backward_transform_spec (v : ℚ → ℚ) (s : Finset ℚ) (i : ℚ)
    (hcard : 2 ≤ s.card) (hi : i ∈ s) :
    (_backward_transform v s i = none ↔ ∀ j ∈ s, i ≤ j) ∧
    (∀ p ∈ s, p < i → (∀ q ∈ s, q < i → q ≤ p) →
       _backward_transform v s i = some ((v i - v p) / (i - p))) := by
  have hsorted : (s.sort (· ≤ ·)).Sorted (· ≤ ·) := Finset.sort_sorted _ s
  have hnodup : (s.sort (· ≤ ·)).Nodup := Finset.sort_nodup _ s
  have hmem : i ∈ s.sort (· ≤ ·) := (Finset.mem_sort _).mpr hi
  have hidx : (s.sort (· ≤ ·)).indexOf i < (s.sort (· ≤ ·)).length :=
    List.indexOf_lt_length.mpr hmem
  have hget : (s.sort (· ≤ ·))[(s.sort (· ≤ ·)).indexOf i] = i :=
    List.getElem_indexOf hidx
  have hprev : (s.sort (· ≤ ·)).indexOf i - 1 < (s.sort (· ≤ ·)).length :=
    Nat.lt_of_le_of_lt (Nat.sub_le _ _) hidx
  constructor
  · rw [← sort_indexOf_zero_iff_min s i hi]
    by_cases h0 : (s.sort (· ≤ ·)).indexOf i = 0
    · simp [_backward_transform, h0]
    · have e1 := List.getElem?_eq_getElem hidx
      have e2 := List.getElem?_eq_getElem hprev
      simp [_backward_transform, h0, e1, e2]
  · intro p hp hpi hmax
    have h0 : (s.sort (· ≤ ·)).indexOf i ≠ 0 := by
      intro h0
      have := ((sort_indexOf_zero_iff_min s i hi).mp h0) p hp
      exact absurd hpi (not_lt.mpr this)
    have hpos : 0 < (s.sort (· ≤ ·)).indexOf i := Nat.pos_of_ne_zero h0
    have hsub : (s.sort (· ≤ ·)).indexOf i - 1 < (s.sort (· ≤ ·)).indexOf i :=
      Nat.sub_lt hpos Nat.one_pos
    -- the element just before i in sorted order
    have hbmem : (s.sort (· ≤ ·))[(s.sort (· ≤ ·)).indexOf i - 1] ∈ s :=
      (Finset.mem_sort _).mp (List.getElem_mem hprev)
    have hble : (s.sort (· ≤ ·))[(s.sort (· ≤ ·)).indexOf i - 1] ≤ i := by
      have := sorted_getElem_le hsorted _ _ hprev hidx (Nat.le_of_lt hsub)
      rwa [hget] at this
    have hbne : (s.sort (· ≤ ·))[(s.sort (· ≤ ·)).indexOf i - 1] ≠ i := by
      intro he
      have h1 := List.indexOf_getElem hnodup _ hprev
      rw [he] at h1
      exact absurd h1.symm (Nat.ne_of_lt hsub)
    have hblt : (s.sort (· ≤ ·))[(s.sort (· ≤ ·)).indexOf i - 1] < i :=
      lt_of_le_of_ne hble hbne
    have hbp : (s.sort (· ≤ ·))[(s.sort (· ≤ ·)).indexOf i - 1] ≤ p :=
      hmax _ hbmem hblt
    have hpmem : p ∈ s.sort (· ≤ ·) := (Finset.mem_sort _).mpr hp
    obtain ⟨k, hk, hkp⟩ := List.getElem_of_mem hpmem
    have hk_lt : k < (s.sort (· ≤ ·)).indexOf i := by
      rcases Nat.lt_or_ge k ((s.sort (· ≤ ·)).indexOf i) with h | h
      · exact h
      · exfalso
        have : i ≤ (s.sort (· ≤ ·))[k] := by
          have := sorted_getElem_le hsorted _ _ hidx hk h
          rwa [hget] at this
        rw [hkp] at this
        exact absurd hpi (not_lt.mpr this)
    have hk_le : k ≤ (s.sort (· ≤ ·)).indexOf i - 1 := Nat.le_sub_one_of_lt hk_lt
    have hpb : p ≤ (s.sort (· ≤ ·))[(s.sort (· ≤ ·)).indexOf i - 1] := by
      have := sorted_getElem_le hsorted _ _ hk hprev hk_le
      rwa [hkp] at this
    have hbeq : (s.sort (· ≤ ·))[(s.sort (· ≤ ·)).indexOf i - 1] = p :=
      le_antisymm hbp hpb
    simp only [_backward_transform]
    rw [if_neg h0]
    rw [List.getElem?_eq_getElem hidx, List.getElem?_eq_getElem hprev]
    rw [hget, hbeq]
    show some (1 / (i - p) * (v i - v p)) = some ((v i - v p) / (i - p))
    rw [one_div_mul_eq_div]

end PyomoDae

namespace PyomoDae

theorem backward_transform_spec_witness :
    _backward_transform (fun q => q) ({0, 1} : Finset ℚ) 1 = some 1 := by
  have h := (backward_transform_spec (fun q => q) ({0, 1} : Finset ℚ) 1
      (by decide) (by decide)).2 0 (by decide) (by norm_num) (by decide)
  rw [h]
  norm_num

/-- Claim C10: the scheme keyword of the finite-difference transformation
defaults to BACKWARD when omitted, and is matched after upper-casing
against exactly the three schemes BACKWARD, CENTRAL and FORWARD; any other
scheme name makes the transformation raise the unknown-scheme
ValueError. -/
theorem scheme_selection (kw : String) :
    resolveScheme none = .ok (_backward_transform, _backward_transform_order2) ∧
    resolveScheme (some kw) =
      (if strUpper kw = "BACKWARD" then .ok (_backward_transform, _backward_transform_order2)
       else if strUpper kw = "CENTRAL" then .ok (_central_transform, _central_transform_order2)
       else if strUpper kw = "FORWARD" then .ok (_forward_transform, _forward_transform_order2)
       else .error (unknownSchemeMsg kw)) := by
  refine ⟨rfl, ?_⟩
  by_cases h1 : strUpper kw = "BACKWARD"
  · have e1 : (strUpper kw == "BACKWARD") = true := beq_iff_eq.mpr h1
    simp [resolveScheme, all_schemes, List.lookup, e1, h1]
  · have e1 : (strUpper kw == "BACKWARD") = false := beq_eq_false_iff_ne.mpr h1
    by_cases h2 : strUpper kw = "CENTRAL"
    · have e2 : (strUpper kw == "CENTRAL") = true := beq_iff_eq.mpr h2
      simp [resolveScheme, all_schemes, List.lookup, e1, e2, h1, h2]
    · have e2 : (strUpper kw == "CENTRAL") = false := beq_eq_false_iff_ne.mpr h2
      by_cases h3 : strUpper kw = "FORWARD"
      · have e3 : (strUpper kw == "FORWARD") = true := beq_iff_eq.mpr h3
        simp [resolveScheme, all_schemes, List.lookup, e1, e2, e3, h1, h2, h3]
      · have e3 : (strUpper kw == "FORWARD") = false := beq_eq_false_iff_ne.mpr h3
        simp [resolveScheme, all_schemes, List.lookup, e1, e2, e3, h1, h2, h3]

end PyomoDae
